import Mathlib

/-!
# Verification of the date/string validation core of `mvp-coperniq`

This file gives a shallow embedding of
`support/utils/common/validation/helpers/date.validation.ts`
(the `DateValidator` class) and the parts of the `StringValidator`
class (`matchesPattern`, `isSSN`) that the claims refer to, and proves
or refutes the frozen claims about them.

Modelling conventions:
* A JavaScript `Date` object is modelled by `JSDate`, carrying exactly the
  observations the code makes of it: `getFullYear`, `getMonth` (0-based),
  `getDate` (day of month), `getTime` (millisecond ordinal).
* The external dependencies — the `chrono-node` natural-language parser,
  the wall clock, and the ECMAScript calendar arithmetic
  (`setDate`/`setMonth`/`setFullYear`) and `toISOString` rendering —
  are abstracted into an `Env` parameter; every theorem quantifies over it.
* A nullable string (`string | null | undefined` at a use site) is
  `Option String`; JavaScript truthiness of such a value is `truthy`.
* The mutable record is `RecordJS`; writes are logged as `RecEffect`s so
  that frame claims can talk about which side effects occurred.
* Code that can raise an exception reaching the caller returns
  `Except Unit _`; `.error ()` models an uncaught thrown exception.
-/

set_option autoImplicit false

namespace Coperniq

/-- Observations the validator makes of a JavaScript `Date` object:
`getFullYear`, `getMonth` (0-based), `getDate`, `getTime` (ms ordinal). -/
structure JSDate where
  fullYear : Int
  month : Nat
  date : Nat
  time : Int
  deriving DecidableEq, Repr

/-- The external capabilities the date validator consumes, abstracted:
`chrono.parseDate` (a `null` return and an internal throw are both `none`),
the wall clock `now`, the ECMAScript date arithmetic used by
`parseDateArgument` (`setDate(getDate()+n)` etc. on a copy of `now`),
and `Date.prototype.toISOString` (used only inside error messages). -/
structure Env where
  chronoParse : String → Option JSDate
  now : JSDate
  addDays : JSDate → Int → JSDate
  addMonths : JSDate → Int → JSDate
  addYears : JSDate → Int → JSDate
  toISOString : JSDate → String

/-- JavaScript truthiness of a `string | null | undefined` value:
truthy iff present and non-empty. -/
def truthy : Option String → Bool
  | none => false
  | some s => s ≠ ""

/-- JavaScript `a || b` for a nullable string `a` with string default `b`. -/
def jsOrStr (a : Option String) (b : String) : String :=
  if truthy a then a.getD "" else b

/-- JavaScript `String.prototype.toLowerCase` (ASCII case mapping). -/
def toLowerJS (s : String) : String := String.mk (s.data.map Char.toLower)

/-- Membership of a single character in a string, as the
`format.includes('/')`-style checks use it. -/
def containsChar (s : String) (c : Char) : Bool := s.data.contains c

/-- Split a character list at every character satisfying `p`, keeping empty
fragments, as the JavaScript `split` with a character-class regular
expression does; `acc` is the (reversed) current fragment. -/
def splitOnPred (p : Char → Bool) : List Char → List Char → List String
  | [], acc => [String.mk acc.reverse]
  | c :: rest, acc =>
    if p c then String.mk acc.reverse :: splitOnPred p rest []
    else splitOnPred p rest (c :: acc)

/-- `String.padStart(2, '0')` as used on month/day renderings. -/
def pad2 (s : String) : String :=
  if s.length ≥ 2 then s else String.mk (List.replicate (2 - s.length) '0') ++ s

/-- Decimal value of a digit list, as `parseInt` computes it on an
all-digit string. -/
def digitsToNat (cs : List Char) : Nat :=
  cs.foldl (fun acc c => acc * 10 + (c.toNat - '0'.toNat)) 0

/-- The unit alternation `(days?|months?|years?)` of the relative-date
regular expression, as an exact-string test. -/
def isRelUnit (u : String) : Bool :=
  u = "day" || u = "days" || u = "month" || u = "months" || u = "year" || u = "years"

/-- Matcher for the regular expression `^now([+-])(\d+)(days?|months?|years?)$`
applied to an (already lowercased) string: returns the sign (`true` for `+`),
the digits' numeric value, and the unit word, or `none` when the string does
not match. `\d+` is greedy and the unit words contain no digits, so the
digit group is the maximal digit run after the sign. -/
def relMatch (s : String) : Option (Bool × Nat × String) :=
  if s.take 3 = "now" then
    match (s.drop 3).data with
    | [] => none
    | c :: rest =>
      if c = '+' || c = '-' then
        if rest.takeWhile Char.isDigit ≠ [] &&
            isRelUnit (String.mk (rest.dropWhile Char.isDigit)) then
          some (c = '+', digitsToNat (rest.takeWhile Char.isDigit),
            String.mk (rest.dropWhile Char.isDigit))
        else none
      else none
  else none

/-- `unit.replace(/s$/, '')`: strip one trailing `s`. -/
def stripTrailingS (u : String) : String :=
  if u.data.getLast? = some 's' then u.dropRight 1 else u

/-- `DateValidator.isDate` (date.validation.ts lines 16–26), on a possibly
null/undefined argument: a `null` argument makes `toLowerCase` throw, which
the internal catch converts to `false`. A string matching the relative-date
regular expression is explicitly rejected; otherwise the verdict is whether
`chrono.parseDate` returns non-null. -/
def isDate (env : Env) (value : Option String) : Bool :=
  match value with
  | none => false
  | some s =>
    if (relMatch (toLowerJS s)).isSome then false
    else (env.chronoParse s).isSome

/-- `DateValidator.parseDate` (lines 33–40): `chrono.parseDate` with any
internal exception converted to a null result. -/
def parseDate (env : Env) (value : Option String) : Option JSDate :=
  match value with
  | none => none
  | some s => env.chronoParse s

/-- `DateValidator.parseDateArgument` (lines 505–537): `'now'` returns the
current instant; otherwise the relative-date regular expression is tried on
the lowercased argument and, on a match, the unit (with a trailing `s`
stripped) selects day/month/year arithmetic on a copy of `now`; any other
outcome is `false` (modelled `none`). A falsy argument returns `false`. -/
def parseDateArgument (env : Env) (value : Option String) : Option JSDate :=
  if truthy value then
    if toLowerJS (value.getD "") = "now" then some env.now
    else
      match relMatch (toLowerJS (value.getD "")) with
      | none => none
      | some (plus, n, unit) =>
        let amt : Int := if plus then (n : Int) else -(n : Int)
        if stripTrailingS unit = "day" then some (env.addDays env.now amt)
        else if stripTrailingS unit = "month" then some (env.addMonths env.now amt)
        else if stripTrailingS unit = "year" then some (env.addYears env.now amt)
        else none
  else none

/-- JavaScript `String.prototype.includes` for a substring. -/
def containsSub (s pat : String) : Bool :=
  (List.range (s.length + 1)).any fun i => (s.drop i).take pat.length = pat

/-- `toLocaleString('en-US', { month: 'long' })` by 0-based month index. -/
def monthLongName : Nat → String
  | 0 => "January" | 1 => "February" | 2 => "March" | 3 => "April"
  | 4 => "May" | 5 => "June" | 6 => "July" | 7 => "August"
  | 8 => "September" | 9 => "October" | 10 => "November" | 11 => "December"
  | _ => ""

/-- `toLocaleString('en-US', { month: 'short' })` by 0-based month index. -/
def monthShortName : Nat → String
  | 0 => "Jan" | 1 => "Feb" | 2 => "Mar" | 3 => "Apr"
  | 4 => "May" | 5 => "Jun" | 6 => "Jul" | 7 => "Aug"
  | 8 => "Sep" | 9 => "Oct" | 10 => "Nov" | 11 => "Dec"
  | _ => ""

/-- `date.toLocaleDateString('en-US', { year: 'numeric', month: '2-digit',
day: '2-digit' })`: the `MM/DD/YYYY` numeric rendering used when no format
string is supplied. -/
def localeDefault (d : JSDate) : String :=
  pad2 (toString (d.month + 1)) ++ "/" ++ pad2 (toString d.date) ++ "/" ++ toString d.fullYear

/-- JavaScript `String.prototype.slice(-2)`: the last two characters
(the whole string when shorter). -/
def sliceLast2 (s : String) : String :=
  if s.length ≥ 2 then s.drop (s.length - 2) else s

/-- Delimiter detection of `formatDate` (lines 70–78) on the lowercased
format: `/`, `-`, `.` scanned in that order, defaulting to a space, and
skipped entirely (space) when a month-name token is present. -/
def fmtDelimiter (format : String) : String :=
  if !containsSub format "mmmm" && !containsSub format "mmm" then
    if containsChar format '/' then "/"
    else if containsChar format '-' then "-"
    else if containsChar format '.' then "."
    else " "
  else " "

/-- Month rendering of `formatDate` (lines 80–94) on the lowercased format:
`mmmm` → full name, `mmm` → short name, `mm` → zero-padded numeric,
otherwise unpadded numeric. -/
def fmtMonth (d : JSDate) (format : String) : String :=
  if containsSub format "mmmm" then monthLongName d.month
  else if containsSub format "mmm" then monthShortName d.month
  else if containsSub format "mm" then pad2 (toString (d.month + 1))
  else toString (d.month + 1)

/-- Year rendering of `formatDate` (lines 96–99): full year when `yyyy`
appears, its last two characters when only `yy` appears, otherwise the
full year. -/
def fmtYear (d : JSDate) (format : String) : String :=
  if containsSub format "yyyy" then toString d.fullYear
  else if containsSub format "yy" then sliceLast2 (toString d.fullYear)
  else toString d.fullYear

/-- Day rendering of `formatDate` (lines 101–103): zero-padded when `dd`
appears, otherwise unpadded. -/
def fmtDay (d : JSDate) (format : String) : String :=
  if containsSub format "dd" then pad2 (toString d.date)
  else toString d.date

/-- Component classification of `formatDate` (lines 105–113): split the
lowercased format on dash, slash, dot or whitespace (the regular expression
character class of line 107), and for each fragment push the year, month
or day rendering, first match winning in that fixed priority. -/
def fmtComponents (d : JSDate) (format : String) : List String :=
  let formatParts :=
    splitOnPred (fun c => c = '-' || c = '/' || c = '.' || c.isWhitespace) format.data []
  formatParts.foldl (fun acc part =>
    if containsChar part 'y' then acc ++ [fmtYear d format]
    else if containsChar part 'm' then acc ++ [fmtMonth d format]
    else if containsChar part 'd' then acc ++ [fmtDay d format]
    else acc) []

/-- `DateValidator.formatDate` (lines 58–127). A falsy format renders the
locale default; otherwise the format is lowercased, delimiter and
year/month/day renderings are chosen, the fragments are classified, and
unless exactly three components result the fallback
``${year}-${pad(month+1)}-${day.padStart(2,'0')}`` is rendered (note: this
interpolates the already-chosen `year` and `day` renderings). The body is
total, so the catch-all ISO branch of the source is unreachable. -/
def formatDate (d : JSDate) (dateFormat : Option String) : String :=
  if !truthy dateFormat then localeDefault d
  else
    let format := toLowerJS (dateFormat.getD "")
    let components := fmtComponents d format
    if components.length ≠ 3 then
      fmtYear d format ++ "-" ++ pad2 (toString (d.month + 1)) ++ "-" ++ pad2 (fmtDay d format)
    else
      String.intercalate (fmtDelimiter format) components

/-- A logged write against the external record: `record.set`,
`record.addError` or `record.addInfo`. -/
inductive RecEffect where
  | set (field value : String)
  | addError (field msg : String)
  | addInfo (field msg : String)
  deriving DecidableEq, Repr

/-- The external record consumed by the validators. `hasLinks` is whether
`record.get` works (the primary read capability; when false, `get` throws
and the `catch` falls back to `record.values[field].value`); `valuesOk`
is whether `values[field]` exists for the fallback (when it does not, the
fallback access itself throws, uncaught); `value` is the stored value of
each field (`none` for `undefined`). -/
structure RecordJS where
  hasLinks : Bool
  value : String → Option String
  valuesOk : String → Bool

/-- The shared read preamble (`try { value = record.get(field) } catch {
value = record.values[field].value; isRecordWithoutLinks = true }`,
e.g. lines 148–155): yields the value and the `isRecordWithoutLinks` flag,
or an uncaught throw when both read paths are unavailable. -/
def readValue (r : RecordJS) (field : String) : Except Unit (Option String × Bool) :=
  if r.hasLinks then .ok (r.value field, false)
  else if r.valuesOk field then .ok (r.value field, true)
  else .error ()

/-- The options object of the validator family; absent keys are falsy. -/
structure VOptions where
  addError : Bool := false
  validateOnEmpty : Bool := false
  errorMsg : Option String := none
  setRecord : Bool := false
  addInfo : Bool := false
  infoMsg : Option String := none
  formatOnError : Bool := false
  formatOnEmpty : Bool := false

/-- The verdict/rendering block of `validate` (lines 156–173): the relative
evaluator first (success forces the verdict true and renders through the
format, defaulted to ISO), otherwise `isDate` decides the verdict and a
successful natural parse supplies the rendering. -/
def validateParse (env : Env) (value : Option String) (dateFormat : Option String) :
    Bool × String :=
  if truthy value then
    match parseDateArgument env value with
    | some d => (true, formatDate d (some (jsOrStr dateFormat "yyyy-MM-dd")))
    | none =>
      if isDate env value then
        match parseDate env value with
        | some p => (true, formatDate p (some (jsOrStr dateFormat "yyyy-MM-dd")))
        | none => (true, "")
      else (false, "")
  else (false, "")

/-- Body of `DateValidator.validate` (lines 147–187) after the read
preamble: a non-empty rendering from `validateParse` is written back
unconditionally (this `record.set` is not guarded by
`isRecordWithoutLinks`); an error is added only when requested, the verdict
is false and the primary capability was available. -/
def validateCore (env : Env) (field : String) (value : Option String) (isRWL : Bool)
    (dateFormat : Option String) (opts : VOptions) : Bool × List RecEffect :=
  let vf := validateParse env value dateFormat
  let setEffs := if vf.2 ≠ "" then [RecEffect.set field vf.2] else []
  let errEffs :=
    if (truthy value || opts.validateOnEmpty) && (!vf.1 && opts.addError && !isRWL) then
      [RecEffect.addError field (jsOrStr opts.errorMsg
        (if truthy dateFormat then
          "Please enter a valid date in the format " ++ dateFormat.getD ""
        else "Please enter a valid date"))]
    else []
  (vf.1, setEffs ++ errEffs)

/-- `DateValidator.validate` (lines 147–187). -/
def validate (env : Env) (r : RecordJS) (field : String)
    (dateFormat : Option String) (opts : VOptions) : Except Unit (Bool × List RecEffect) :=
  (readValue r field).map fun vb => validateCore env field vb.1 vb.2 dateFormat opts

/-- The rendering block of `format` (lines 221–231): the relative evaluator
first, otherwise a direct natural parse; failure renders the empty string. -/
def formatRender (env : Env) (value : Option String) (dateFormat : Option String) : String :=
  if truthy value then
    match parseDateArgument env value with
    | some d => formatDate d (some (jsOrStr dateFormat "yyyy-MM-dd"))
    | none =>
      match parseDate env value with
      | some p => formatDate p (some (jsOrStr dateFormat "yyyy-MM-dd"))
      | none => ""
  else ""

/-- Body of `DateValidator.format` (lines 208–245) after the read preamble:
derive the rendering via `formatRender`, optionally add an info annotation
(only when both `addInfo` and `setRecord` are on and the primary capability
was available), and write back only when `setRecord` is on, the rendering
is non-empty and the primary capability was available. -/
def formatCore (env : Env) (field : String) (value : Option String) (isRWL : Bool)
    (dateFormat : Option String) (opts : VOptions) : String × List RecEffect :=
  let formatted := formatRender env value dateFormat
  let infoEffs :=
    if (truthy value || opts.formatOnEmpty) && formatted ≠ "" then
      if opts.addInfo && opts.setRecord && !isRWL then
        [RecEffect.addInfo field (jsOrStr opts.infoMsg
          ("Value has been formatted from " ++ value.getD ""))]
      else []
    else []
  let setEffs :=
    if opts.setRecord && formatted ≠ "" && !isRWL then [RecEffect.set field formatted] else []
  (formatted, infoEffs ++ setEffs)

/-- `DateValidator.format` (lines 208–245). -/
def format (env : Env) (r : RecordJS) (field : String)
    (dateFormat : Option String) (opts : VOptions) : Except Unit (String × List RecEffect) :=
  (readValue r field).map fun vb => formatCore env field vb.1 vb.2 dateFormat opts

/-- The bound-resolution step shared by `before`/`after`/`between`
(e.g. lines 279–287): when the bound passes `isDate` it is parsed
naturally, otherwise the relative evaluator is tried; a failed branch
leaves the bound unresolved (`none`). -/
def resolveBound (env : Env) (s : Option String) : Option JSDate :=
  if isDate env s then parseDate env s else parseDateArgument env s

/-- The field-value resolution step of `before`/`after`/`between`
(e.g. lines 289–301): `isDate` first with natural parsing, otherwise the
relative evaluator; on relative success with a truthy format the rendered
value is immediately written back — in `before` and `between` only when the
primary read capability was available (`guardLinks = true`), in `after`
unconditionally (`guardLinks = false`). -/
def resolveValue (env : Env) (field : String) (value : Option String)
    (dateFormat : Option String) (guardLinks : Bool) (isRWL : Bool) :
    Option JSDate × List RecEffect :=
  if isDate env value then (parseDate env value, [])
  else
    match parseDateArgument env value with
    | some p =>
      (some p,
        if truthy dateFormat && (!guardLinks || !isRWL) then
          [RecEffect.set field (formatDate p dateFormat)]
        else [])
    | none => (none, [])

/-- Rendering of a comparison bound inside a default error message
(e.g. lines 310–312): the resolved bound through the format (or ISO instant
form without one), else the raw argument. -/
def boundErrText (env : Env) (dateFormat : Option String) (bound : Option String)
    (resolved : Option JSDate) : String :=
  match resolved with
  | some d => if truthy dateFormat then formatDate d dateFormat else env.toISOString d
  | none => bound.getD "null"

/-- Body of `DateValidator.before` (lines 266–319) after the read preamble. -/
def beforeCore (env : Env) (field : String) (value : Option String) (isRWL : Bool)
    (dateBefore : Option String) (dateFormat : Option String) (opts : VOptions) :
    Bool × List RecEffect :=
  if truthy value then
    let dBF := resolveBound env dateBefore
    let rv := resolveValue env field value dateFormat true isRWL
    let valid :=
      match rv.1, dBF with
      | some i, some b => decide (i.time < b.time)
      | _, _ => false
    let errEffs :=
      if !valid && opts.addError && !isRWL then
        [RecEffect.addError field (jsOrStr opts.errorMsg
          ("Please enter a valid date before " ++ boundErrText env dateFormat dateBefore dBF))]
      else []
    (valid, rv.2 ++ errEffs)
  else
    let errEffs :=
      if opts.validateOnEmpty && (opts.addError && !isRWL) then
        [RecEffect.addError field (jsOrStr opts.errorMsg
          ("Please enter a valid date before " ++ boundErrText env dateFormat dateBefore none))]
      else []
    (false, errEffs)

/-- `DateValidator.before` (lines 266–319). -/
def before (env : Env) (r : RecordJS) (field : String) (dateBefore : Option String)
    (dateFormat : Option String) (opts : VOptions) : Except Unit (Bool × List RecEffect) :=
  (readValue r field).map fun vb => beforeCore env field vb.1 vb.2 dateBefore dateFormat opts

/-- Body of `DateValidator.after` (lines 346–399) after the read preamble;
identical to `before` up to the strict `>` comparison and the immediate
rewrite not being guarded by `isRecordWithoutLinks` (line 377). -/
def afterCore (env : Env) (field : String) (value : Option String) (isRWL : Bool)
    (dateAfter : Option String) (dateFormat : Option String) (opts : VOptions) :
    Bool × List RecEffect :=
  if truthy value then
    let dAF := resolveBound env dateAfter
    let rv := resolveValue env field value dateFormat false isRWL
    let valid :=
      match rv.1, dAF with
      | some i, some b => decide (i.time > b.time)
      | _, _ => false
    let errEffs :=
      if !valid && opts.addError && !isRWL then
        [RecEffect.addError field (jsOrStr opts.errorMsg
          ("Please enter a valid date after " ++ boundErrText env dateFormat dateAfter dAF))]
      else []
    (valid, rv.2 ++ errEffs)
  else
    let errEffs :=
      if opts.validateOnEmpty && (opts.addError && !isRWL) then
        [RecEffect.addError field (jsOrStr opts.errorMsg
          ("Please enter a valid date after " ++ boundErrText env dateFormat dateAfter none))]
      else []
    (false, errEffs)

/-- `DateValidator.after` (lines 346–399). -/
def after (env : Env) (r : RecordJS) (field : String) (dateAfter : Option String)
    (dateFormat : Option String) (opts : VOptions) : Except Unit (Bool × List RecEffect) :=
  (readValue r field).map fun vb => afterCore env field vb.1 vb.2 dateAfter dateFormat opts

/-- Body of `DateValidator.between` (lines 421–489) after the read
preamble: both bounds are resolved like a `before` bound, the value like a
`before` value, and the verdict is the open-interval test of lines 469–472. -/
def betweenCore (env : Env) (field : String) (value : Option String) (isRWL : Bool)
    (dateStart dateEnd : Option String) (dateFormat : Option String) (opts : VOptions) :
    Bool × List RecEffect :=
  if truthy value then
    let dSF := resolveBound env dateStart
    let dEF := resolveBound env dateEnd
    let rv := resolveValue env field value dateFormat true isRWL
    let valid :=
      match rv.1, dSF, dEF with
      | some i, some s, some e => decide (i.time > s.time) && decide (i.time < e.time)
      | _, _, _ => false
    let errEffs :=
      if !valid && opts.addError && !isRWL then
        [RecEffect.addError field (jsOrStr opts.errorMsg
          ("Please enter a valid date between " ++ boundErrText env dateFormat dateStart dSF ++
            " and " ++ boundErrText env dateFormat dateEnd dEF))]
      else []
    (valid, rv.2 ++ errEffs)
  else
    let errEffs :=
      if opts.validateOnEmpty && (opts.addError && !isRWL) then
        [RecEffect.addError field (jsOrStr opts.errorMsg
          ("Please enter a valid date between " ++ boundErrText env dateFormat dateStart none ++
            " and " ++ boundErrText env dateFormat dateEnd none))]
      else []
    (false, errEffs)

/-- `DateValidator.between` (lines 421–489). -/
def between (env : Env) (r : RecordJS) (field : String) (dateStart dateEnd : Option String)
    (dateFormat : Option String) (opts : VOptions) : Except Unit (Bool × List RecEffect) :=
  (readValue r field).map fun vb =>
    betweenCore env field vb.1 vb.2 dateStart dateEnd dateFormat opts

/-- The `DateValidationType` enum (date.validation.ts lines 3–8). -/
inductive DateValidationType where
  | VALIDATE
  | BEFORE
  | AFTER
  | BETWEEN
  deriving DecidableEq, Repr

/-- A JavaScript value in the `validationArgs` position of
`evaluateAndFormat` (typed `any` in the source): `undefined`, `null`, a
string, or an array whose elements are nullable strings. -/
inductive JSVal where
  | undef
  | null
  | str (s : String)
  | arr (xs : List (Option String))
  deriving DecidableEq, Repr

/-- JavaScript property access `v[i]`: throws (uncaught) on `undefined`
and `null`, yields a one-character string on a string, the element or
`undefined` on an array. -/
def jsIndex : JSVal → Nat → Except Unit (Option String)
  | .undef, _ => .error ()
  | .null, _ => .error ()
  | .str s, i => .ok ((s.data.get? i).map fun c => String.mk [c])
  | .arr xs, i => .ok (xs.getD i none)

/-- Apply one logged write to the record state: `set` overwrites the stored
field value; annotations do not change stored values. -/
def applyEff (r : RecordJS) : RecEffect → RecordJS
  | .set f v => { r with value := fun g => if g = f then some v else r.value g }
  | _ => r

/-- Apply a list of logged writes in order. -/
def applyEffs (r : RecordJS) (effs : List RecEffect) : RecordJS :=
  effs.foldl applyEff r

/-- `DateValidator.evaluateAndFormat` (lines 566–612): dispatch on the
validation type — `before`/`after` index `validationArgs[0]` (which throws
on a null/undefined `validationArgs`), `between` passes the two elements of
an array of length exactly 2 and otherwise `null` bounds — then run
`format` (against the record as mutated so far) when the verdict is true or
`formatOnError` is set. -/
def evaluateAndFormat (env : Env) (r : RecordJS) (field : String)
    (validationType : DateValidationType) (dateFormat : Option String)
    (validationArgs : JSVal) (opts : VOptions) : Except Unit (Bool × List RecEffect) := do
  let (isValid, effs) ←
    match validationType with
    | .BEFORE => do
      let b ← jsIndex validationArgs 0
      before env r field b dateFormat opts
    | .AFTER => do
      let b ← jsIndex validationArgs 0
      after env r field b dateFormat opts
    | .BETWEEN =>
      let args : Option String × Option String :=
        match validationArgs with
        | .arr xs => if xs.length = 2 then (xs.getD 0 none, xs.getD 1 none) else (none, none)
        | _ => (none, none)
      between env r field args.1 args.2 dateFormat opts
    | .VALIDATE => validate env r field dateFormat opts
  if isValid || opts.formatOnError then
    let fr ← format env (applyEffs r effs) field dateFormat opts
    pure (isValid, effs ++ fr.2)
  else
    pure (isValid, effs)

/-! ## The `StringValidator` parts referred to by the claims -/

/-- The read preamble of `StringValidator.matchesPattern` (part_001 lines
164–171): the primary read coalesces a missing value to the empty string
(`record.get(field)?.toString() || ''`); the fallback read is the raw
stored value. -/
def readValueStr (r : RecordJS) (field : String) : Except Unit (Option String × Bool) :=
  if r.hasLinks then .ok (some ((r.value field).getD ""), false)
  else if r.valuesOk field then .ok (r.value field, true)
  else .error ()

/-- Options of `StringValidator.matchesPattern`, including the
`preprocessedValue` key that `isSSN` fills in. -/
structure SOptions where
  addError : Bool := false
  validateOnEmpty : Bool := false
  errorMsg : Option String := none
  preprocessedValue : Option String := none

/-- `StringValidator.matchesPattern` (part_001 lines 158–186), with the
regular expression abstracted as a string predicate: tests the pattern
against the (raw) field value when truthy; note the body never consults
`options.preprocessedValue`. -/
def matchesPattern (r : RecordJS) (field : String) (pattern : String → Bool)
    (opts : SOptions) : Except Unit (Bool × List RecEffect) :=
  (readValueStr r field).map fun vb =>
    let valid := if truthy vb.1 then pattern (vb.1.getD "") else false
    let errEffs :=
      if (truthy vb.1 || opts.validateOnEmpty) && (!valid && opts.addError && !vb.2) then
        [RecEffect.addError field (jsOrStr opts.errorMsg
          "Value does not match the required pattern")]
      else []
    (valid, errEffs)

/-- The SSN regular expression of `isSSN` (part_001 line 295),
`^(?!000|666|9\d{2})\d{3}(?!00)\d{2}(?!0000)\d{4}$`, as a predicate:
exactly nine digits, not starting `000`, `666` or `9`, with a middle group
other than `00` and a final group other than `0000`. -/
def ssnPattern (s : String) : Bool :=
  s.length = 9 && s.data.all Char.isDigit &&
    !(s.take 3 = "000") && !(s.take 3 = "666") && !(s.take 1 = "9") &&
    !((s.drop 3).take 2 = "00") && !(s.drop 5 = "0000")

/-- `value.replace(/\D/g, '')`: keep only the digits. -/
def digitsOnlyOf (s : String) : String :=
  String.mk (s.data.filter Char.isDigit)

/-- `StringValidator.isSSN` (part_001 lines 283–301): reads the value
(its own dual-path read; a missing fallback value makes the `.replace`
call throw), computes the digits-only string, and delegates to
`matchesPattern` with the SSN pattern, a default error message, and the
digits-only string as `preprocessedValue`. -/
def isSSN (r : RecordJS) (field : String) (opts : SOptions) :
    Except Unit (Bool × List RecEffect) := do
  let vb ← readValueStr r field
  let digitsOnly ←
    match vb.1 with
    | some s => pure (digitsOnlyOf s)
    | none => .error ()
  matchesPattern r field ssnPattern
    { opts with
        errorMsg := some (jsOrStr opts.errorMsg "Please enter a valid Social Security Number"),
        preprocessedValue := some digitsOnly }

/-! ## Concrete fixtures for instantiating the theorems -/

/-- A `JSDate` from its four observations. -/
def mkDate (y : Int) (m d : Nat) (t : Int) : JSDate := ⟨y, m, d, t⟩

/-- A concrete environment: a three-entry natural-date table, a fixed
clock, and simple calendar arithmetic. -/
def testEnv : Env :=
  { chronoParse := fun s =>
      if s = "2024-01-01" then some (mkDate 2024 0 1 1000)
      else if s = "2024-06-15" then some (mkDate 2024 5 15 5000)
      else if s = "2024-12-31" then some (mkDate 2024 11 31 9000)
      else none,
    now := mkDate 2024 0 1 0,
    addDays := fun d n => { d with time := d.time + n * 86400000 },
    addMonths := fun d n => { d with time := d.time + n * 2592000000 },
    addYears := fun d n => { d with fullYear := d.fullYear + n },
    toISOString := fun d => toString d.time }

/-- A record whose primary read capability works and holds `v` at `field`. -/
def linkedRec (field v : String) : RecordJS :=
  { hasLinks := true,
    value := fun g => if g = field then some v else none,
    valuesOk := fun _ => true }

/-- A record whose primary read throws; the fallback path holds `v`. -/
def detachedRec (field v : String) : RecordJS :=
  { hasLinks := false,
    value := fun g => if g = field then some v else none,
    valuesOk := fun _ => true }

/-! ## Helper lemmas -/

theorem resolveValue_fst (env : Env) (field : String) (value : Option String)
    (dateFormat : Option String) (g b : Bool) :
    (resolveValue env field value dateFormat g b).1 = resolveBound env value := by
  unfold resolveValue resolveBound
  split
  · rfl
  · cases h : parseDateArgument env value <;> simp [h]

theorem betweenCore_verdict (env : Env) (field : String) (v : String) (isRWL : Bool)
    (s e : Option String) (fmt : Option String) (opts : VOptions)
    (dv ds de : JSDate) (hv : v ≠ "")
    (hdv : resolveBound env (some v) = some dv)
    (hds : resolveBound env s = some ds)
    (hde : resolveBound env e = some de) :
    (betweenCore env field (some v) isRWL s e fmt opts).1 =
      (decide (dv.time > ds.time) && decide (dv.time < de.time)) := by
  have ht : truthy (some v) = true := by simp [truthy, hv]
  unfold betweenCore
  simp only [ht, if_true, resolveValue_fst, hdv, hds, hde]

theorem beforeCore_verdict (env : Env) (field : String) (v : String) (isRWL : Bool)
    (bnd : Option String) (fmt : Option String) (opts : VOptions)
    (dv db : JSDate) (hv : v ≠ "")
    (hdv : resolveBound env (some v) = some dv)
    (hdb : resolveBound env bnd = some db) :
    (beforeCore env field (some v) isRWL bnd fmt opts).1 = decide (dv.time < db.time) := by
  have ht : truthy (some v) = true := by simp [truthy, hv]
  unfold beforeCore
  simp only [ht, if_true, resolveValue_fst, hdv, hdb]

theorem afterCore_verdict (env : Env) (field : String) (v : String) (isRWL : Bool)
    (bnd : Option String) (fmt : Option String) (opts : VOptions)
    (dv db : JSDate) (hv : v ≠ "")
    (hdv : resolveBound env (some v) = some dv)
    (hdb : resolveBound env bnd = some db) :
    (afterCore env field (some v) isRWL bnd fmt opts).1 = decide (dv.time > db.time) := by
  have ht : truthy (some v) = true := by simp [truthy, hv]
  unfold afterCore
  simp only [ht, if_true, resolveValue_fst, hdv, hdb]

/-! ## The claims -/

/-- C1: for every record field value `v` and bound strings `s`, `e` that all
resolve to Date Values, `DateValidator.between` returns true iff `s`'s
millisecond time is strictly below `v`'s and `v`'s strictly below `e`'s
(open interval); boundary equality on either side, and a degenerate
interval, therefore always yield false. -/
theorem C1_between_open_interval (env : Env) (r : RecordJS) (field v s e : String)
    (fmt : Option String) (opts : VOptions) (isRWL : Bool) (dv ds de : JSDate)
    (hread : readValue r field = .ok (some v, isRWL)) (hv : v ≠ "")
    (hdv : resolveBound env (some v) = some dv)
    (hds : resolveBound env (some s) = some ds)
    (hde : resolveBound env (some e) = some de) :
    (between env r field (some s) (some e) fmt opts).map Prod.fst = .ok true ↔
      (ds.time < dv.time ∧ dv.time < de.time) := by
  unfold between
  rw [hread]
  simp only [Except.map]
  rw [betweenCore_verdict env field v isRWL (some s) (some e) fmt opts dv ds de hv hdv hds hde]
  simp

/-- Witness for C1 at a concrete record and environment. -/
theorem C1_between_open_interval_witness :
    ((between testEnv (linkedRec "f" "2024-06-15") "f" (some "2024-01-01")
        (some "2024-12-31") none {}).map Prod.fst = .ok true ↔
      ((mkDate 2024 0 1 1000).time < (mkDate 2024 5 15 5000).time ∧
        (mkDate 2024 5 15 5000).time < (mkDate 2024 11 31 9000).time)) :=
  C1_between_open_interval testEnv (linkedRec "f" "2024-06-15") "f" "2024-06-15"
    "2024-01-01" "2024-12-31" none {} false (mkDate 2024 5 15 5000)
    (mkDate 2024 0 1 1000) (mkDate 2024 11 31 9000) rfl (by decide) rfl rfl rfl

/-- C4: `before` and `after` compare millisecond times strictly: for a value
and bound that both resolve, the two verdicts are never both true, and both
are false when the times are equal. -/
theorem C4_before_after_strict (env : Env) (r : RecordJS) (field v bnd : String)
    (fmt : Option String) (opts : VOptions) (isRWL : Bool) (dv db : JSDate)
    (hread : readValue r field = .ok (some v, isRWL)) (hv : v ≠ "")
    (hdv : resolveBound env (some v) = some dv)
    (hdb : resolveBound env (some bnd) = some db) :
    ¬((before env r field (some bnd) fmt opts).map Prod.fst = .ok true ∧
        (after env r field (some bnd) fmt opts).map Prod.fst = .ok true) ∧
      (dv.time = db.time →
        (before env r field (some bnd) fmt opts).map Prod.fst = .ok false ∧
          (after env r field (some bnd) fmt opts).map Prod.fst = .ok false) := by
  unfold before after
  rw [hread]
  simp only [Except.map]
  rw [beforeCore_verdict env field v isRWL (some bnd) fmt opts dv db hv hdv hdb,
    afterCore_verdict env field v isRWL (some bnd) fmt opts dv db hv hdv hdb]
  constructor
  · rintro ⟨h1, h2⟩
    simp only [Except.ok.injEq, decide_eq_true_eq] at h1 h2
    omega
  · intro heq
    simp [heq]

/-- Witness for C4 at a concrete record and environment. -/
theorem C4_before_after_strict_witness :
    (¬((before testEnv (linkedRec "f" "2024-06-15") "f" (some "2024-01-01") none
          {}).map Prod.fst = .ok true ∧
        (after testEnv (linkedRec "f" "2024-06-15") "f" (some "2024-01-01") none
          {}).map Prod.fst = .ok true) ∧
      ((mkDate 2024 5 15 5000).time = (mkDate 2024 0 1 1000).time →
        (before testEnv (linkedRec "f" "2024-06-15") "f" (some "2024-01-01") none
          {}).map Prod.fst = .ok false ∧
        (after testEnv (linkedRec "f" "2024-06-15") "f" (some "2024-01-01") none
          {}).map Prod.fst = .ok false)) :=
  C4_before_after_strict testEnv (linkedRec "f" "2024-06-15") "f" "2024-06-15"
    "2024-01-01" none {} false (mkDate 2024 5 15 5000) (mkDate 2024 0 1 1000)
    rfl (by decide) (by decide) (by decide)

theorem relMatch_unit (s : String) (p : Bool) (n : Nat) (u : String)
    (h : relMatch s = some (p, n, u)) : isRelUnit u = true := by
  unfold relMatch at h
  split at h
  · split at h
    · exact absurd h (by simp)
    · split at h
      · split at h
        · rename_i hcond
          simp only [Option.some.injEq, Prod.mk.injEq] at h
          obtain ⟨-, -, hu⟩ := h
          simp only [Bool.and_eq_true] at hcond
          exact hu ▸ hcond.2
        · exact absurd h (by simp)
      · exact absurd h (by simp)
  · exact absurd h (by simp)

theorem relMatch_empty : relMatch (toLowerJS "") = none := by decide

theorem relMatch_now : relMatch "now" = none := by decide

theorem stripTrailingS_of_isRelUnit (u : String) (h : isRelUnit u = true) :
    stripTrailingS u = "day" ∨ stripTrailingS u = "month" ∨ stripTrailingS u = "year" := by
  simp only [isRelUnit, Bool.or_eq_true, decide_eq_true_eq] at h
  rcases h with ((((h | h) | h) | h) | h) | h <;> subst h <;> decide

theorem relMatch_arg_ne_empty (s : String) (m : Bool × Nat × String)
    (hm : relMatch (toLowerJS s) = some m) : s ≠ "" := by
  rintro rfl
  rw [relMatch_empty] at hm
  exact Option.noConfusion hm

theorem parseDateArgument_of_relMatch (env : Env) (s : String) (m : Bool × Nat × String)
    (hm : relMatch (toLowerJS s) = some m) :
    ∃ d, parseDateArgument env (some s) = some d := by
  have hs : s ≠ "" := relMatch_arg_ne_empty s m hm
  have hnow : toLowerJS s ≠ "now" := by
    intro h
    rw [h, relMatch_now] at hm
    exact Option.noConfusion hm
  obtain ⟨p, n, u⟩ := m
  have hu := relMatch_unit _ _ _ _ hm
  unfold parseDateArgument
  have ht : truthy (some s) = true := by simp [truthy, hs]
  rw [ht]
  simp only [Option.getD_some, if_true]
  rw [if_neg hnow]
  simp only [hm]
  rcases stripTrailingS_of_isRelUnit u hu with h|h|h <;> simp [h]

/-- C3: a string matching the relative-date grammar
`^now([+-])(\d+)(days?|months?|years?)$` (case-insensitively) is rejected
by `isDate`, yet `validate` on a field holding it returns true (it resolves
through `parseDateArgument`); and `isDate` holds exactly for strings that
fail the relative grammar and are parseable by the natural-date parser. -/
theorem C3_relative_carveout (env : Env) (r : RecordJS) (field : String)
    (fmt : Option String) (opts : VOptions) (s : String) (isRWL : Bool)
    (m : Bool × Nat × String)
    (hm : relMatch (toLowerJS s) = some m)
    (hread : readValue r field = .ok (some s, isRWL)) :
    isDate env (some s) = false ∧
    (validate env r field fmt opts).map Prod.fst = .ok true ∧
    (∀ t : String, isDate env (some t) = true ↔
      (relMatch (toLowerJS t) = none ∧ (env.chronoParse t).isSome = true)) := by
  refine ⟨by simp [isDate, hm], ?_, ?_⟩
  · obtain ⟨d, hd⟩ := parseDateArgument_of_relMatch env s m hm
    have hs : s ≠ "" := relMatch_arg_ne_empty s m hm
    have ht : truthy (some s) = true := by simp [truthy, hs]
    unfold validate
    rw [hread]
    simp only [Except.map]
    unfold validateCore validateParse
    simp [ht, hd]
  · intro t
    unfold isDate
    cases h : relMatch (toLowerJS t) <;> simp [h]

/-- Witness for C3 at `"now+5days"` on a concrete record and environment. -/
theorem C3_relative_carveout_witness :
    (isDate testEnv (some "now+5days") = false ∧
      (validate testEnv (linkedRec "f" "now+5days") "f" none {}).map Prod.fst = .ok true ∧
      (∀ t : String, isDate testEnv (some t) = true ↔
        (relMatch (toLowerJS t) = none ∧ (testEnv.chronoParse t).isSome = true))) :=
  C3_relative_carveout testEnv (linkedRec "f" "now+5days") "f" none {} "now+5days"
    false (true, 5, "days") (by decide) rfl

theorem resolveBound_none (env : Env) : resolveBound env none = none := rfl

theorem betweenCore_none_start (env : Env) (field : String) (value : Option String)
    (isRWL : Bool) (e : Option String) (fmt : Option String) (opts : VOptions) :
    (betweenCore env field value isRWL none e fmt opts).1 = false := by
  unfold betweenCore
  split
  · rcases h1 : (resolveValue env field value fmt true isRWL).1 with _ | d1 <;>
      rcases h2 : resolveBound env e with _ | d2 <;>
        simp [resolveBound_none, h1, h2]
  · simp

theorem between_none_bounds (env : Env) (r : RecordJS) (field : String)
    (e : Option String) (fmt : Option String) (opts : VOptions) :
    ∀ v effs, between env r field none e fmt opts = .ok (v, effs) → v = false := by
  intro v effs h
  unfold between at h
  cases hr : readValue r field with
  | error u => rw [hr] at h; exact absurd h (by simp [Except.map])
  | ok vb =>
    rw [hr] at h
    simp only [Except.map, Except.ok.injEq] at h
    have h1 := betweenCore_none_start env field vb.1 vb.2 e fmt opts
    rw [h] at h1
    exact h1

/-- C9: `evaluateAndFormat` with validation type `between` and a
`validationArgs` that is not an array of exactly two elements dispatches
null bounds to `between`, and whenever the call returns its verdict is
false. -/
theorem C9_between_malformed_args (env : Env) (r : RecordJS) (field : String)
    (fmt : Option String) (va : JSVal) (opts : VOptions)
    (hshape : ∀ xs : List (Option String), va = JSVal.arr xs → xs.length ≠ 2) :
    ∀ res, evaluateAndFormat env r field .BETWEEN fmt va opts = .ok res →
      res.1 = false := by
  intro res hres
  unfold evaluateAndFormat at hres
  have hargs : (match va with
      | JSVal.arr xs =>
        if xs.length = 2 then (xs.getD 0 none, xs.getD 1 none)
        else ((none : Option String), (none : Option String))
      | _ => ((none : Option String), (none : Option String))) = (none, none) := by
    cases va with
    | arr xs => simp [hshape xs rfl]
    | undef => rfl
    | null => rfl
    | str s => rfl
  rw [hargs] at hres
  simp only [] at hres
  cases hb : between env r field none none fmt opts with
  | error u =>
    rw [hb] at hres
    exact absurd hres (by simp [Bind.bind, Except.bind])
  | ok p =>
    obtain ⟨v, effs⟩ := p
    have hv : v = false := between_none_bounds env r field none fmt opts v effs hb
    subst hv
    rw [hb] at hres
    simp only [Bind.bind, Except.bind, Bool.false_or] at hres
    by_cases hf : opts.formatOnError = true
    · rw [hf] at hres
      simp only [if_true] at hres
      cases hfr : format env (applyEffs r effs) field fmt opts with
      | error u =>
        rw [hfr] at hres
        exact absurd hres (by simp [Except.bind])
      | ok fr =>
        rw [hfr] at hres
        simp only [pure, Except.pure, Except.ok.injEq] at hres
        rw [← hres]
    · simp only [Bool.not_eq_true] at hf
      rw [hf] at hres
      simp only [Bool.false_eq_true, if_false, pure, Except.pure, Except.ok.injEq] at hres
      rw [← hres]

/-- Witness for C9 with a non-array `validationArgs`: the concrete call
returns, and the claim theorem applies to its result. -/
theorem C9_between_malformed_args_witness :
    evaluateAndFormat testEnv (linkedRec "f" "2024-06-15") "f" .BETWEEN none
        (JSVal.str "x") {} = .ok (false, []) ∧
      ((false, ([] : List RecEffect)).1 = false) :=
  ⟨rfl, C9_between_malformed_args testEnv (linkedRec "f" "2024-06-15") "f" none
    (JSVal.str "x") {} (fun _ h => JSVal.noConfusion h) (false, []) rfl⟩

theorem validateCore_empty_default (env : Env) (field : String) (v : Option String)
    (isRWL : Bool) (fmt : Option String) (hv : truthy v = false) :
    validateCore env field v isRWL fmt {} = (false, []) := by
  unfold validateCore validateParse
  simp [hv]

theorem validateCore_set_nonempty (env : Env) (field : String) (v : Option String)
    (isRWL : Bool) (fmt : Option String) (opts : VOptions) (f s : String) :
    RecEffect.set f s ∈ (validateCore env field v isRWL fmt opts).2 → s ≠ "" := by
  unfold validateCore
  intro h
  simp only [] at h
  rcases List.mem_append.1 h with h | h
  · by_cases hne : (validateParse env v fmt).2 ≠ ""
    · rw [if_pos hne, List.mem_singleton] at h
      simp only [RecEffect.set.injEq] at h
      exact h.2 ▸ hne
    · rw [if_neg hne] at h
      exact absurd h (List.not_mem_nil _)
  · split at h
    · rw [List.mem_singleton] at h
      exact absurd h (by simp)
    · exact absurd h (List.not_mem_nil _)

theorem formatCore_set_nonempty (env : Env) (field : String) (v : Option String)
    (isRWL : Bool) (fmt : Option String) (opts : VOptions) (f s : String) :
    RecEffect.set f s ∈ (formatCore env field v isRWL fmt opts).2 → s ≠ "" := by
  unfold formatCore
  intro h
  simp only [] at h
  rcases List.mem_append.1 h with h | h
  · split at h
    · split at h
      · rw [List.mem_singleton] at h
        exact absurd h (by simp)
      · exact absurd h (List.not_mem_nil _)
    · exact absurd h (List.not_mem_nil _)
  · split at h
    · rename_i hc
      rw [List.mem_singleton] at h
      simp only [RecEffect.set.injEq] at h
      simp only [Bool.and_eq_true, decide_eq_true_eq] at hc
      exact h.2 ▸ hc.1.2
    · exact absurd h (List.not_mem_nil _)

theorem validateCore_unparsable_no_set (env : Env) (field : String) (v : Option String)
    (isRWL : Bool) (fmt : Option String) (opts : VOptions)
    (hnd : isDate env v = false) (hnp : parseDateArgument env v = none) :
    ∀ f s : String, RecEffect.set f s ∉ (validateCore env field v isRWL fmt opts).2 := by
  have hvf : validateParse env v fmt = (false, "") := by
    unfold validateParse
    by_cases ht : truthy v = true
    · simp [ht, hnp, hnd]
    · simp only [Bool.not_eq_true] at ht
      simp [ht]
  intro f s h
  unfold validateCore at h
  rw [hvf] at h
  simp at h

/-- C8: `validate` on an empty/absent field value with default options
returns false with no record mutation and no error annotation; and every
`record.set` performed by `validate` or `format` carries a non-empty
formatted string, so an unparsable value never has its field overwritten. -/
theorem C8_empty_value_frame (env : Env) (r : RecordJS) (field : String)
    (fmt : Option String) (v : Option String) (isRWL : Bool)
    (hread : readValue r field = .ok (v, isRWL)) :
    (truthy v = false → validate env r field fmt {} = .ok (false, [])) ∧
    (∀ opts res, validate env r field fmt opts = .ok res →
      ∀ f s, RecEffect.set f s ∈ res.2 → s ≠ "") ∧
    (∀ opts res, format env r field fmt opts = .ok res →
      ∀ f s, RecEffect.set f s ∈ res.2 → s ≠ "") ∧
    (isDate env v = false → parseDateArgument env v = none →
      ∀ opts res, validate env r field fmt opts = .ok res →
        ∀ f s, RecEffect.set f s ∉ res.2) := by
  refine ⟨?_, ?_, ?_, ?_⟩
  · intro hv
    unfold validate
    rw [hread]
    simp only [Except.map]
    rw [validateCore_empty_default env field v isRWL fmt hv]
  · intro opts res hres f s
    unfold validate at hres
    rw [hread] at hres
    simp only [Except.map, Except.ok.injEq] at hres
    rw [← hres]
    exact validateCore_set_nonempty env field v isRWL fmt opts f s
  · intro opts res hres f s
    unfold format at hres
    rw [hread] at hres
    simp only [Except.map, Except.ok.injEq] at hres
    rw [← hres]
    exact formatCore_set_nonempty env field v isRWL fmt opts f s
  · intro hnd hnp opts res hres f s
    unfold validate at hres
    rw [hread] at hres
    simp only [Except.map, Except.ok.injEq] at hres
    rw [← hres]
    exact validateCore_unparsable_no_set env field v isRWL fmt opts hnd hnp f s

/-- Witness for C8 on a record holding the empty string. -/
theorem C8_empty_value_frame_witness :
    ((truthy (some "") = false →
        validate testEnv (linkedRec "f" "") "f" none {} = .ok (false, [])) ∧
      (∀ opts res, validate testEnv (linkedRec "f" "") "f" none opts = .ok res →
        ∀ f s, RecEffect.set f s ∈ res.2 → s ≠ "") ∧
      (∀ opts res, format testEnv (linkedRec "f" "") "f" none opts = .ok res →
        ∀ f s, RecEffect.set f s ∈ res.2 → s ≠ "") ∧
      (isDate testEnv (some "") = false → parseDateArgument testEnv (some "") = none →
        ∀ opts res, validate testEnv (linkedRec "f" "") "f" none opts = .ok res →
          ∀ f s, RecEffect.set f s ∉ res.2)) :=
  C8_empty_value_frame testEnv (linkedRec "f" "") "f" none (some "") false rfl

theorem resolveValue_effs_rwl (env : Env) (field : String) (v : Option String)
    (fmt : Option String) : (resolveValue env field v fmt true true).2 = [] := by
  unfold resolveValue
  split
  · rfl
  · cases parseDateArgument env v <;> simp

theorem beforeCore_rwl_effs (env : Env) (field : String) (v : Option String)
    (bnd : Option String) (fmt : Option String) (opts : VOptions) :
    (beforeCore env field v true bnd fmt opts).2 = [] := by
  unfold beforeCore
  split
  · simp [resolveValue_effs_rwl]
  · simp

theorem betweenCore_rwl_effs (env : Env) (field : String) (v : Option String)
    (b1 b2 : Option String) (fmt : Option String) (opts : VOptions) :
    (betweenCore env field v true b1 b2 fmt opts).2 = [] := by
  unfold betweenCore
  split
  · simp [resolveValue_effs_rwl]
  · simp

theorem formatCore_rwl_effs (env : Env) (field : String) (v : Option String)
    (fmt : Option String) (opts : VOptions) :
    (formatCore env field v true fmt opts).2 = [] := by
  unfold formatCore
  simp

theorem validateCore_rwl_only_set (env : Env) (field : String) (v : Option String)
    (fmt : Option String) (opts : VOptions) :
    ∀ e ∈ (validateCore env field v true fmt opts).2, ∃ f s, e = RecEffect.set f s := by
  unfold validateCore
  intro e he
  simp only [] at he
  rcases List.mem_append.1 he with he | he
  · split at he
    · rw [List.mem_singleton] at he
      exact ⟨_, _, he⟩
    · exact absurd he (List.not_mem_nil _)
  · simp at he

theorem resolveValue_only_set (env : Env) (field : String) (v : Option String)
    (fmt : Option String) (g b : Bool) :
    ∀ e ∈ (resolveValue env field v fmt g b).2, ∃ f s, e = RecEffect.set f s := by
  unfold resolveValue
  intro e he
  split at he
  · simp at he
  · rcases hp : parseDateArgument env v with _ | p
    · rw [hp] at he
      simp at he
    · rw [hp] at he
      simp only [] at he
      split at he
      · rw [List.mem_singleton] at he
        exact ⟨_, _, he⟩
      · exact absurd he (List.not_mem_nil _)

theorem afterCore_rwl_only_set (env : Env) (field : String) (v : Option String)
    (bnd : Option String) (fmt : Option String) (opts : VOptions) :
    ∀ e ∈ (afterCore env field v true bnd fmt opts).2, ∃ f s, e = RecEffect.set f s := by
  unfold afterCore
  intro e he
  split at he
  · simp only [] at he
    rcases List.mem_append.1 he with he | he
    · exact resolveValue_only_set env field v fmt false true e he
    · simp at he
  · simp at he

/-- C6 (amended): in reduced capability mode (primary read failed, fallback
path used) no error or info annotation is ever written, and `before`,
`between` and `format` perform no write at all; but `validate` always, and
`after` when the relative path resolves the value under a supplied format,
still call `record.set`. -/
theorem C6_reduced_mode (env : Env) (r : RecordJS) (field : String)
    (b1 b2 : Option String) (fmt : Option String) (opts : VOptions) (v : Option String)
    (hread : readValue r field = .ok (v, true)) :
    (∀ res, before env r field b1 fmt opts = .ok res → res.2 = []) ∧
    (∀ res, between env r field b1 b2 fmt opts = .ok res → res.2 = []) ∧
    (∀ res, format env r field fmt opts = .ok res → res.2 = []) ∧
    (∀ res, validate env r field fmt opts = .ok res →
      ∀ e ∈ res.2, ∃ f s, e = RecEffect.set f s) ∧
    (∀ res, after env r field b1 fmt opts = .ok res →
      ∀ e ∈ res.2, ∃ f s, e = RecEffect.set f s) := by
  refine ⟨?_, ?_, ?_, ?_, ?_⟩ <;> intro res hres
  · unfold before at hres
    rw [hread] at hres
    simp only [Except.map, Except.ok.injEq] at hres
    rw [← hres]
    exact beforeCore_rwl_effs env field v b1 fmt opts
  · unfold between at hres
    rw [hread] at hres
    simp only [Except.map, Except.ok.injEq] at hres
    rw [← hres]
    exact betweenCore_rwl_effs env field v b1 b2 fmt opts
  · unfold format at hres
    rw [hread] at hres
    simp only [Except.map, Except.ok.injEq] at hres
    rw [← hres]
    exact formatCore_rwl_effs env field v fmt opts
  · unfold validate at hres
    rw [hread] at hres
    simp only [Except.map, Except.ok.injEq] at hres
    rw [← hres]
    exact validateCore_rwl_only_set env field v fmt opts
  · unfold after at hres
    rw [hread] at hres
    simp only [Except.map, Except.ok.injEq] at hres
    rw [← hres]
    exact afterCore_rwl_only_set env field v b1 fmt opts

/-- Witness for C6 (amended) on a concrete record without the primary read
capability. -/
theorem C6_reduced_mode_witness :
    ((∀ res, before testEnv (detachedRec "f" "now") "f" (some "x") none {} = .ok res →
        res.2 = []) ∧
      (∀ res, between testEnv (detachedRec "f" "now") "f" (some "x") (some "y") none {} =
        .ok res → res.2 = []) ∧
      (∀ res, format testEnv (detachedRec "f" "now") "f" none {} = .ok res → res.2 = []) ∧
      (∀ res, validate testEnv (detachedRec "f" "now") "f" none {} = .ok res →
        ∀ e ∈ res.2, ∃ f s, e = RecEffect.set f s) ∧
      (∀ res, after testEnv (detachedRec "f" "now") "f" (some "x") none {} = .ok res →
        ∀ e ∈ res.2, ∃ f s, e = RecEffect.set f s)) :=
  C6_reduced_mode testEnv (detachedRec "f" "now") "f" (some "x") (some "y") none {}
    (some "now") rfl

/-- Counterexample to C6 as stated: with the primary read capability
unavailable (the secondary read path `values[field].value` is used),
`validate` still performs a `record.set` of the formatted value. -/
theorem C6_counterexample :
    (detachedRec "f" "now").hasLinks = false ∧
    readValue (detachedRec "f" "now") "f" = .ok (some "now", true) ∧
    validate testEnv (detachedRec "f" "now") "f" none {} =
      .ok (true, [RecEffect.set "f" "2024-01-01"]) :=
  ⟨rfl, rfl, rfl⟩

theorem parseDateArgument_truthy (env : Env) (v : Option String) (p : JSDate)
    (hp : parseDateArgument env v = some p) : truthy v = true := by
  by_contra h
  simp only [Bool.not_eq_true] at h
  unfold parseDateArgument at hp
  rw [h] at hp
  simp at hp

theorem resolveValue_set (env : Env) (field : String) (v : Option String)
    (fmt : Option String) (g isRWL : Bool) (p : JSDate)
    (hnd : isDate env v = false) (hp : parseDateArgument env v = some p)
    (hguard : (truthy fmt && (!g || !isRWL)) = true) :
    (resolveValue env field v fmt g isRWL).2 = [RecEffect.set field (formatDate p fmt)] := by
  unfold resolveValue
  rw [if_neg (by simp [hnd]), hp]
  simp [hguard]

/-- C7 (amended): when the field value fails `isDate` but the relative
evaluator resolves it and a format is supplied, the record is immediately
rewritten with the rendered value — for `before` and `between` only when the
primary read capability was available, for `after` unconditionally — and
this holds whatever the bounds are, hence even when the final comparison
verdict is false. -/
theorem C7_relative_rewrite (env : Env) (r : RecordJS) (field : String)
    (b1 b2 : Option String) (fmt : Option String) (opts : VOptions)
    (v : Option String) (isRWL : Bool) (p : JSDate)
    (hread : readValue r field = .ok (v, isRWL))
    (hnd : isDate env v = false)
    (hp : parseDateArgument env v = some p)
    (hf : truthy fmt = true) :
    (isRWL = false → ∀ res, before env r field b1 fmt opts = .ok res →
      RecEffect.set field (formatDate p fmt) ∈ res.2) ∧
    (isRWL = false → ∀ res, between env r field b1 b2 fmt opts = .ok res →
      RecEffect.set field (formatDate p fmt) ∈ res.2) ∧
    (∀ res, after env r field b1 fmt opts = .ok res →
      RecEffect.set field (formatDate p fmt) ∈ res.2) := by
  have ht : truthy v = true := parseDateArgument_truthy env v p hp
  refine ⟨?_, ?_, ?_⟩
  · intro hrwl res hres
    subst hrwl
    unfold before at hres
    rw [hread] at hres
    simp only [Except.map, Except.ok.injEq] at hres
    rw [← hres]
    unfold beforeCore
    rw [ht]
    simp only [if_true]
    rw [resolveValue_set env field v fmt true false p hnd hp (by simp [hf])]
    simp
  · intro hrwl res hres
    subst hrwl
    unfold between at hres
    rw [hread] at hres
    simp only [Except.map, Except.ok.injEq] at hres
    rw [← hres]
    unfold betweenCore
    rw [ht]
    simp only [if_true]
    rw [resolveValue_set env field v fmt true false p hnd hp (by simp [hf])]
    simp
  · intro res hres
    unfold after at hres
    rw [hread] at hres
    simp only [Except.map, Except.ok.injEq] at hres
    rw [← hres]
    unfold afterCore
    rw [ht]
    simp only [if_true]
    rw [resolveValue_set env field v fmt false isRWL p hnd hp (by simp [hf])]
    simp

/-- Witness for C7 (amended) at a linked record holding a relative-date
expression. -/
theorem C7_relative_rewrite_witness :
    ((false = false → ∀ res, before testEnv (linkedRec "f" "now+5days") "f"
        (some "2024-12-31") (some "yyyy-mm-dd") {} = .ok res →
        RecEffect.set "f" (formatDate (mkDate 2024 0 1 432000000) (some "yyyy-mm-dd")) ∈
          res.2) ∧
      (false = false → ∀ res, between testEnv (linkedRec "f" "now+5days") "f"
        (some "2024-12-31") (some "2024-01-01") (some "yyyy-mm-dd") {} = .ok res →
        RecEffect.set "f" (formatDate (mkDate 2024 0 1 432000000) (some "yyyy-mm-dd")) ∈
          res.2) ∧
      (∀ res, after testEnv (linkedRec "f" "now+5days") "f" (some "2024-12-31")
          (some "yyyy-mm-dd") {} = .ok res →
        RecEffect.set "f" (formatDate (mkDate 2024 0 1 432000000) (some "yyyy-mm-dd")) ∈
          res.2)) :=
  C7_relative_rewrite testEnv (linkedRec "f" "now+5days") "f" (some "2024-12-31")
    (some "2024-01-01") (some "yyyy-mm-dd") {} (some "now+5days") false
    (mkDate 2024 0 1 432000000) rfl (by decide) (by decide) rfl

/-- Counterexample to C7 as stated: in reduced capability mode, `before`
suppresses the immediate rewrite even though the value fails `isDate`, the
relative evaluator resolves it, and a format was supplied: no `record.set`
occurs at all. -/
theorem C7_counterexample :
    isDate testEnv (some "now+5days") = false ∧
    parseDateArgument testEnv (some "now+5days") = some (mkDate 2024 0 1 432000000) ∧
    truthy (some "yyyy-mm-dd") = true ∧
    (detachedRec "f" "now+5days").hasLinks = false ∧
    before testEnv (detachedRec "f" "now+5days") "f" (some "2024-12-31")
      (some "yyyy-mm-dd") {} = .ok (false, []) :=
  ⟨rfl, by decide, rfl, rfl, rfl⟩

theorem pad2_idem (s : String) : pad2 (pad2 s) = pad2 s := by
  have hlen : (pad2 s).length ≥ 2 := by
    unfold pad2
    split
    · assumption
    · rename_i h
      rw [String.length_append]
      have hm : (String.mk (List.replicate (2 - s.length) '0')).length = 2 - s.length := by
        rw [String.length_mk, List.length_replicate]
      omega
  calc pad2 (pad2 s)
      = if (pad2 s).length ≥ 2 then pad2 s
          else String.mk (List.replicate (2 - (pad2 s).length) '0') ++ pad2 s := rfl
    _ = pad2 s := if_pos hlen

theorem pad2_fmtDay (d : JSDate) (format : String) :
    pad2 (fmtDay d format) = pad2 (toString d.date) := by
  unfold fmtDay
  split
  · exact pad2_idem _
  · rfl

/-- C5 (amended): for a truthy Format Specification whose fragment
classification does not yield exactly three components, `formatDate` falls
back to a hyphenated rendering whose month and day are zero-padded
two-digit regardless of the renderings chosen from the tokens — but whose
year component is the year rendering chosen earlier: the full year whenever
the specification contains `yyyy` or no `yy` at all, and only the last two
characters of the year when it contains `yy` without `yyyy`. -/
theorem C5_malformed_fallback (d : JSDate) (f : String) (hf : f ≠ "")
    (hmal : (fmtComponents d (toLowerJS f)).length ≠ 3) :
    formatDate d (some f) =
      fmtYear d (toLowerJS f) ++ "-" ++ pad2 (toString (d.month + 1)) ++ "-" ++
        pad2 (toString d.date) ∧
    ((containsSub (toLowerJS f) "yyyy" = true ∨ containsSub (toLowerJS f) "yy" = false) →
      fmtYear d (toLowerJS f) = toString d.fullYear) := by
  constructor
  · have ht : truthy (some f) = true := by simp [truthy, hf]
    unfold formatDate
    rw [ht]
    simp only [Bool.not_true, Bool.false_eq_true, if_false, Option.getD_some]
    rw [if_pos hmal, pad2_fmtDay]
  · intro hy
    unfold fmtYear
    rcases hy with hy | hy
    · rw [hy]
      simp
    · by_cases h4 : containsSub (toLowerJS f) "yyyy" = true
      · rw [h4]
        simp
      · simp only [Bool.not_eq_true] at h4
        rw [h4, hy]
        simp

/-- Witness for C5 (amended) at the malformed specification `"banana"`. -/
theorem C5_malformed_fallback_witness :
    (formatDate (mkDate 2024 2 5 0) (some "banana") =
      fmtYear (mkDate 2024 2 5 0) (toLowerJS "banana") ++ "-" ++
        pad2 (toString ((mkDate 2024 2 5 0).month + 1)) ++ "-" ++
        pad2 (toString (mkDate 2024 2 5 0).date) ∧
      ((containsSub (toLowerJS "banana") "yyyy" = true ∨
          containsSub (toLowerJS "banana") "yy" = false) →
        fmtYear (mkDate 2024 2 5 0) (toLowerJS "banana") =
          toString (mkDate 2024 2 5 0).fullYear)) :=
  C5_malformed_fallback (mkDate 2024 2 5 0) "banana" (by decide) (by decide)

/-- Counterexample to C5 as stated: the specification `"yy"` is malformed
(classification yields one component, not three), yet the fallback renders
the two-character year `"24"`, not the full four-digit ISO form. -/
theorem C5_counterexample :
    (fmtComponents (mkDate 2024 2 5 0) (toLowerJS "yy")).length ≠ 3 ∧
    formatDate (mkDate 2024 2 5 0) (some "yy") = "24-03-05" ∧
    "24-03-05" ≠ "2024-03-05" :=
  ⟨by decide, rfl, by decide⟩

theorem applyEff_pres (r : RecordJS) (e : RecEffect) :
    (applyEff r e).hasLinks = r.hasLinks ∧ (applyEff r e).valuesOk = r.valuesOk := by
  cases e <;> exact ⟨rfl, rfl⟩

theorem applyEffs_pres (r : RecordJS) (effs : List RecEffect) :
    (applyEffs r effs).hasLinks = r.hasLinks ∧ (applyEffs r effs).valuesOk = r.valuesOk := by
  induction effs generalizing r with
  | nil => exact ⟨rfl, rfl⟩
  | cons e es ih =>
    have h1 := applyEff_pres r e
    have h2 := ih (applyEff r e)
    exact ⟨h2.1.trans h1.1, h2.2.trans h1.2⟩

theorem readValue_isOk (r : RecordJS) (field : String)
    (h : r.hasLinks = true ∨ r.valuesOk field = true) :
    ∃ x, readValue r field = .ok x := by
  unfold readValue
  by_cases hl : r.hasLinks = true
  · rw [if_pos hl]
    exact ⟨_, rfl⟩
  · rw [if_neg hl]
    rcases h with h | h
    · exact absurd h hl
    · rw [if_pos h]
      exact ⟨_, rfl⟩

theorem validate_isOk (env : Env) (r : RecordJS) (field : String)
    (fmt : Option String) (opts : VOptions)
    (h : r.hasLinks = true ∨ r.valuesOk field = true) :
    ∃ x, validate env r field fmt opts = .ok x := by
  obtain ⟨vb, hvb⟩ := readValue_isOk r field h
  exact ⟨_, by unfold validate; rw [hvb]; rfl⟩

theorem format_isOk (env : Env) (r : RecordJS) (field : String)
    (fmt : Option String) (opts : VOptions)
    (h : r.hasLinks = true ∨ r.valuesOk field = true) :
    ∃ x, format env r field fmt opts = .ok x := by
  obtain ⟨vb, hvb⟩ := readValue_isOk r field h
  exact ⟨_, by unfold format; rw [hvb]; rfl⟩

theorem before_isOk (env : Env) (r : RecordJS) (field : String) (b1 : Option String)
    (fmt : Option String) (opts : VOptions)
    (h : r.hasLinks = true ∨ r.valuesOk field = true) :
    ∃ x, before env r field b1 fmt opts = .ok x := by
  obtain ⟨vb, hvb⟩ := readValue_isOk r field h
  exact ⟨_, by unfold before; rw [hvb]; rfl⟩

theorem after_isOk (env : Env) (r : RecordJS) (field : String) (b1 : Option String)
    (fmt : Option String) (opts : VOptions)
    (h : r.hasLinks = true ∨ r.valuesOk field = true) :
    ∃ x, after env r field b1 fmt opts = .ok x := by
  obtain ⟨vb, hvb⟩ := readValue_isOk r field h
  exact ⟨_, by unfold after; rw [hvb]; rfl⟩

theorem between_isOk (env : Env) (r : RecordJS) (field : String) (b1 b2 : Option String)
    (fmt : Option String) (opts : VOptions)
    (h : r.hasLinks = true ∨ r.valuesOk field = true) :
    ∃ x, between env r field b1 b2 fmt opts = .ok x := by
  obtain ⟨vb, hvb⟩ := readValue_isOk r field h
  exact ⟨_, by unfold between; rw [hvb]; rfl⟩

theorem jsIndex_isOk (va : JSVal) (i : Nat) (h : va ≠ .undef ∧ va ≠ .null) :
    ∃ x, jsIndex va i = .ok x := by
  cases va with
  | undef => exact absurd rfl h.1
  | null => exact absurd rfl h.2
  | str s => exact ⟨_, rfl⟩
  | arr xs => exact ⟨_, rfl⟩

theorem finish_isOk (env : Env) (r : RecordJS) (field : String) (fmt : Option String)
    (opts : VOptions) (iv : Bool) (effs : List RecEffect)
    (h : r.hasLinks = true ∨ r.valuesOk field = true) :
    ∃ x, (if (iv || opts.formatOnError) = true then do
        let fr ← format env (applyEffs r effs) field fmt opts
        pure (iv, effs ++ fr.2)
      else pure (iv, effs) : Except Unit (Bool × List RecEffect)) = .ok x := by
  have hp : (applyEffs r effs).hasLinks = true ∨ (applyEffs r effs).valuesOk field = true := by
    have hpres := applyEffs_pres r effs
    rcases h with h | h
    · exact Or.inl (hpres.1.trans h)
    · exact Or.inr ((congrFun hpres.2 field).trans h)
  by_cases hc : (iv || opts.formatOnError) = true
  · rw [if_pos hc]
    obtain ⟨fr, hfr⟩ := format_isOk env (applyEffs r effs) field fmt opts hp
    exact ⟨_, by rw [show (do
        let fr ← format env (applyEffs r effs) field fmt opts
        pure (iv, effs ++ fr.2) : Except Unit (Bool × List RecEffect)) =
          (format env (applyEffs r effs) field fmt opts).bind
            (fun fr => pure (iv, effs ++ fr.2)) from rfl, hfr]; rfl⟩
  · rw [if_neg hc]
    exact ⟨_, rfl⟩

/-- C2 (amended): each public entry point of the date validator family
terminates normally and returns a value — no exception escapes — provided
the record offers at least one read path for the field (primary `get`, or
the secondary `values[field].value` when `get` throws), and provided that
for the `before`/`after` dispatch of `evaluateAndFormat` the
`validationArgs` value is not null/undefined (indexing `validationArgs[0]`
on null/undefined throws out of the facade). -/
theorem C2_no_throw (env : Env) (r : RecordJS) (field : String)
    (vt : DateValidationType) (fmt : Option String) (va : JSVal)
    (b1 b2 : Option String) (opts : VOptions)
    (hr : r.hasLinks = true ∨ r.valuesOk field = true)
    (ha : (vt = .BEFORE ∨ vt = .AFTER) → (va ≠ .undef ∧ va ≠ .null)) :
    (∃ x, validate env r field fmt opts = .ok x) ∧
    (∃ x, format env r field fmt opts = .ok x) ∧
    (∃ x, before env r field b1 fmt opts = .ok x) ∧
    (∃ x, after env r field b1 fmt opts = .ok x) ∧
    (∃ x, between env r field b1 b2 fmt opts = .ok x) ∧
    (∃ x, evaluateAndFormat env r field vt fmt va opts = .ok x) := by
  refine ⟨validate_isOk env r field fmt opts hr, format_isOk env r field fmt opts hr,
    before_isOk env r field b1 fmt opts hr, after_isOk env r field b1 fmt opts hr,
    between_isOk env r field b1 b2 fmt opts hr, ?_⟩
  unfold evaluateAndFormat
  cases vt with
  | BEFORE =>
    obtain ⟨b, hb⟩ := jsIndex_isOk va 0 (ha (Or.inl rfl))
    obtain ⟨p, hp⟩ := before_isOk env r field b fmt opts hr
    obtain ⟨iv, effs⟩ := p
    obtain ⟨x, hx⟩ := finish_isOk env r field fmt opts iv effs hr
    refine ⟨x, ?_⟩
    simp only []
    rw [hb]
    simp only [Bind.bind, Except.bind]
    rw [hp]
    simp only []
    exact hx
  | AFTER =>
    obtain ⟨b, hb⟩ := jsIndex_isOk va 0 (ha (Or.inr rfl))
    obtain ⟨p, hp⟩ := after_isOk env r field b fmt opts hr
    obtain ⟨iv, effs⟩ := p
    obtain ⟨x, hx⟩ := finish_isOk env r field fmt opts iv effs hr
    refine ⟨x, ?_⟩
    simp only []
    rw [hb]
    simp only [Bind.bind, Except.bind]
    rw [hp]
    simp only []
    exact hx
  | BETWEEN =>
    obtain ⟨p, hp⟩ := between_isOk env r field
      (match va with
        | JSVal.arr xs =>
          if xs.length = 2 then (xs.getD 0 none, xs.getD 1 none)
          else ((none : Option String), (none : Option String))
        | _ => ((none : Option String), (none : Option String))).1
      (match va with
        | JSVal.arr xs =>
          if xs.length = 2 then (xs.getD 0 none, xs.getD 1 none)
          else ((none : Option String), (none : Option String))
        | _ => ((none : Option String), (none : Option String))).2
      fmt opts hr
    obtain ⟨iv, effs⟩ := p
    obtain ⟨x, hx⟩ := finish_isOk env r field fmt opts iv effs hr
    refine ⟨x, ?_⟩
    simp only []
    rw [hp]
    simp only [Bind.bind, Except.bind]
    exact hx
  | VALIDATE =>
    obtain ⟨p, hp⟩ := validate_isOk env r field fmt opts hr
    obtain ⟨iv, effs⟩ := p
    obtain ⟨x, hx⟩ := finish_isOk env r field fmt opts iv effs hr
    refine ⟨x, ?_⟩
    simp only []
    rw [hp]
    simp only [Bind.bind, Except.bind]
    exact hx

/-- Witness for C2 (amended) on a concrete record and arguments. -/
theorem C2_no_throw_witness :
    ((∃ x, validate testEnv (linkedRec "f" "2024-01-01") "f" none {} = .ok x) ∧
      (∃ x, format testEnv (linkedRec "f" "2024-01-01") "f" none {} = .ok x) ∧
      (∃ x, before testEnv (linkedRec "f" "2024-01-01") "f" (some "now") none {} = .ok x) ∧
      (∃ x, after testEnv (linkedRec "f" "2024-01-01") "f" (some "now") none {} = .ok x) ∧
      (∃ x, between testEnv (linkedRec "f" "2024-01-01") "f" (some "now") (some "now")
        none {} = .ok x) ∧
      (∃ x, evaluateAndFormat testEnv (linkedRec "f" "2024-01-01") "f" .BEFORE none
        (JSVal.str "now") {} = .ok x)) :=
  C2_no_throw testEnv (linkedRec "f" "2024-01-01") "f" .BEFORE none (JSVal.str "now")
    (some "now") (some "now") {} (Or.inl rfl)
    (fun _ => ⟨fun h => JSVal.noConfusion h, fun h => JSVal.noConfusion h⟩)

/-- Counterexample to C2 as stated: `evaluateAndFormat` with validation type
`before` and an undefined `validationArgs` evaluates `validationArgs[0]`,
whose TypeError escapes to the caller — an exception does reach the caller
for that argument shape. -/
theorem C2_counterexample :
    evaluateAndFormat testEnv (linkedRec "f" "2024-01-01") "f" .BEFORE none
      JSVal.undef {} = .error () := rfl

/-- C10: `matchesPattern` tests the raw field value and never consults the
`preprocessedValue` option, so `isSSN` — which passes the digit-stripped
value through that option — rejects every field value containing a
non-digit character (such as the separators of `"123-45-6789"`), while the
bare nine digits `"123456789"` pass. -/
theorem C10_isSSN_raw_value (r : RecordJS) (field : String) (opts : SOptions)
    (v : String) (b : Bool)
    (hread : readValueStr r field = .ok (some v, b))
    (hsep : ∃ c ∈ v.data, c.isDigit = false) :
    (∀ (pat : String → Bool) (p1 p2 : Option String),
      matchesPattern r field pat { opts with preprocessedValue := p1 } =
        matchesPattern r field pat { opts with preprocessedValue := p2 }) ∧
    (∀ res, isSSN r field opts = .ok res → res.1 = false) ∧
    isSSN (linkedRec "ssn" "123456789") "ssn" {} = .ok (true, []) := by
  refine ⟨fun pat p1 p2 => rfl, ?_, rfl⟩
  intro res hres
  have hpat : ssnPattern v = false := by
    obtain ⟨c, hc, hcd⟩ := hsep
    have hall : v.data.all Char.isDigit = false := by
      rcases h : v.data.all Char.isDigit
      · rfl
      · rw [List.all_eq_true] at h
        rw [h c hc] at hcd
        exact Bool.noConfusion hcd
    unfold ssnPattern
    simp [hall]
  unfold isSSN at hres
  rw [hread] at hres
  simp only [Bind.bind, Except.bind, pure, Except.pure] at hres
  unfold matchesPattern at hres
  rw [hread] at hres
  simp only [Except.map, Except.ok.injEq] at hres
  rw [← hres]
  simp only []
  by_cases ht : truthy (some v) = true
  · rw [ht]
    simp [hpat]
  · simp only [Bool.not_eq_true] at ht
    rw [ht]
    simp

/-- Witness for C10 at a record holding a separator-formatted SSN. -/
theorem C10_isSSN_raw_value_witness :
    ((∀ (pat : String → Bool) (p1 p2 : Option String),
        matchesPattern (linkedRec "ssn" "123-45-6789") "ssn" pat
            { preprocessedValue := p1 } =
          matchesPattern (linkedRec "ssn" "123-45-6789") "ssn" pat
            { preprocessedValue := p2 }) ∧
      (∀ res, isSSN (linkedRec "ssn" "123-45-6789") "ssn" {} = .ok res → res.1 = false) ∧
      isSSN (linkedRec "ssn" "123456789") "ssn" {} = .ok (true, [])) :=
  C10_isSSN_raw_value (linkedRec "ssn" "123-45-6789") "ssn" {} "123-45-6789" false rfl
    ⟨'-', by decide, by decide⟩

end Coperniq
